import Mathlib

/-!
# Verification of the Guppy-Zuchtbuch domain layer

Shallow embedding of `src/GuppyZuchtbuchOptionB.tsx`.

Modelling conventions:
* JavaScript numbers are modelled as `JsNum`: either `NaN`, `±Infinity`, or a
  finite value carried as an exact rational (`ℚ`).  Binary-float rounding is
  not modelled; no statement below depends on rounding.
* JavaScript strings are Lean `String`s; `trim` / `.replace(",", ".")` are
  modelled explicitly over the character list.
* `JSON.parse` output is modelled by the inductive `Json`; the single storage
  slot is `Option (Option Json)` (`none` = key absent, `some none` = stored
  text that does not parse, `some (some j)` = parses to `j`).
* Fallible JS evaluation (a `throw` inside the `try` block of `loadState`)
  is modelled with `Except Unit`.
-/

/-- A JavaScript number: `NaN`, `±Infinity`, or a finite value (modelled as an
exact rational). -/
inductive JsNum where
  | nan
  | posInf
  | negInf
  | finite (q : ℚ)
deriving DecidableEq, Repr

/-- `Number.isFinite`. -/
def JsNum.isFinite : JsNum → Bool
  | .finite _ => true
  | _ => false

/-- Unary minus on a JS number. -/
def JsNum.neg : JsNum → JsNum
  | .nan => .nan
  | .posInf => .negInf
  | .negInf => .posInf
  | .finite q => .finite (-q)

/-- The JavaScript whitespace characters recognised by `String.prototype.trim`
and by `Number()` (ASCII whitespace, NBSP, BOM, line/paragraph separator). -/
def isJsWs (c : Char) : Bool :=
  c = ' ' || c = '\t' || c = '\n' || c = '\r' ||
  c = (Char.ofNat 11) || c = (Char.ofNat 12) ||
  c = (Char.ofNat 0xA0) || c = (Char.ofNat 0xFEFF) ||
  c = (Char.ofNat 0x2028) || c = (Char.ofNat 0x2029)

/-- Trim JS whitespace from both ends of a character list. -/
def jsTrimList (l : List Char) : List Char :=
  ((l.dropWhile isJsWs).reverse.dropWhile isJsWs).reverse

/-- Model of `s.trim()`. -/
def jsTrim (s : String) : String :=
  ⟨jsTrimList s.data⟩

/-- Model of `s.replace(",", ".")`: a string pattern replaces only the first
occurrence. -/
def replaceCommaList : List Char → List Char
  | [] => []
  | c :: t => if c = ',' then '.' :: t else c :: replaceCommaList t

/-- Model of `s.replace(",", ".")` on strings. -/
def jsReplaceComma (s : String) : String :=
  ⟨replaceCommaList s.data⟩

/-- Numeric value of a digit list read in base `b`. -/
def digitsVal (b : ℚ) (toVal : Char → ℕ) (ds : List Char) : ℚ :=
  ds.foldl (fun acc c => acc * b + (toVal c : ℚ)) 0

/-- Decimal value of a digit list. -/
def decDigitsVal (ds : List Char) : ℚ :=
  digitsVal 10 (fun c => c.toNat - '0'.toNat) ds

/-- `10 ^ e` over ℚ for an integer exponent. -/
def qpow10 (e : ℤ) : ℚ := (10 : ℚ) ^ e

/-- Parse a non-empty all-digit suffix into a natural number; `none` if the
list is empty or contains a non-digit. -/
def parseNatDigits (l : List Char) : Option ℕ :=
  if l.isEmpty then none
  else if l.all Char.isDigit then
    some (l.foldl (fun acc c => acc * 10 + (c.toNat - '0'.toNat)) 0)
  else none

/-- Parse the ECMAScript `ExponentPart` remainder: empty means exponent 0,
otherwise `e`/`E` followed by an optionally signed digit string that must
consume the whole remainder. -/
def parseExponent : List Char → Option ℤ
  | [] => some 0
  | 'e' :: r => parseSignedInt r
  | 'E' :: r => parseSignedInt r
  | _ => none
where
  parseSignedInt : List Char → Option ℤ
    | '+' :: r => (parseNatDigits r).map (fun n => (n : ℤ))
    | '-' :: r => (parseNatDigits r).map (fun n => -(n : ℤ))
    | r => (parseNatDigits r).map (fun n => (n : ℤ))

/-- ECMAScript `StrUnsignedDecimalLiteral`:
`Infinity`, or `Digits [. Digits] [Exponent]`, or `. Digits [Exponent]`. -/
def parseUnsignedDec (l : List Char) : Option JsNum :=
  if l = "Infinity".data then some .posInf
  else
    let ip := l.takeWhile Char.isDigit
    let r := l.dropWhile Char.isDigit
    match r with
    | '.' :: r2 =>
      let fp := r2.takeWhile Char.isDigit
      let r3 := r2.dropWhile Char.isDigit
      if ip.isEmpty && fp.isEmpty then none
      else
        (parseExponent r3).map fun e =>
          .finite ((decDigitsVal ip + decDigitsVal fp / 10 ^ fp.length) * qpow10 e)
    | _ =>
      if ip.isEmpty then none
      else (parseExponent r).map fun e => .finite (decDigitsVal ip * qpow10 e)

/-- Hex digit predicate. -/
def isHexDigit (c : Char) : Bool :=
  c.isDigit || ('a' ≤ c && c ≤ 'f') || ('A' ≤ c && c ≤ 'F')

/-- Hex digit value. -/
def hexVal (c : Char) : ℕ :=
  if c.isDigit then c.toNat - '0'.toNat
  else if 'a' ≤ c && c ≤ 'f' then c.toNat - 'a'.toNat + 10
  else c.toNat - 'A'.toNat + 10

/-- ECMAScript `NonDecimalIntegerLiteral` (`0x…`, `0o…`, `0b…`); unsigned only. -/
def parseNonDecimal (l : List Char) : Option JsNum :=
  match l with
  | '0' :: x :: r =>
    if x = 'x' || x = 'X' then
      if !r.isEmpty && r.all isHexDigit then some (.finite (digitsVal 16 hexVal r)) else none
    else if x = 'o' || x = 'O' then
      if !r.isEmpty && r.all (fun c => '0' ≤ c && c ≤ '7') then
        some (.finite (digitsVal 8 (fun c => c.toNat - '0'.toNat) r))
      else none
    else if x = 'b' || x = 'B' then
      if !r.isEmpty && r.all (fun c => c = '0' || c = '1') then
        some (.finite (digitsVal 2 (fun c => c.toNat - '0'.toNat) r))
      else none
    else none
  | _ => none

/-- Model of ECMAScript `ToNumber` applied to a string (`Number(s)`): trims
whitespace, the empty remainder is `0`, a sign applies only to a decimal
literal, and anything not matching the grammar is `NaN`. -/
def strToNumber (s : String) : JsNum :=
  let l := jsTrimList s.data
  if l.isEmpty then .finite 0
  else
    match l with
    | '+' :: r => (parseUnsignedDec r).getD .nan
    | '-' :: r => ((parseUnsignedDec r).map JsNum.neg).getD .nan
    | _ =>
      match parseNonDecimal l with
      | some v => v
      | none => (parseUnsignedDec l).getD .nan

/-- `parseNumOrNull` (source lines 65–70): trims, replaces the first comma by
a dot, returns `null` for the empty string, and returns the converted number
only when it is finite. -/
def parseNumOrNull (s : String) : Option JsNum :=
  let t := jsReplaceComma (jsTrim s)
  if t = "" then none
  else
    let n := strToNumber t
    if n.isFinite then some n else none

/-! ## Water-parameter registry and threshold classification

The domain layer lives in the `Guppy` namespace so the source's entity names
(`Group`, `Line`, …) can be kept without clashing with Mathlib. -/

namespace Guppy

/-- The fixed catalog of 8 water-quality parameter keys (`PARAM_DEFS`). -/
inductive ParamKey where
  | temp | ph | gh | kh | no2 | no3 | tds | cond
deriving DecidableEq, Repr

/-- `ALL_PARAM_KEYS = Object.keys(PARAM_DEFS)` in declaration order. -/
def ALL_PARAM_KEYS : List ParamKey :=
  [.temp, .ph, .gh, .kh, .no2, .no3, .tds, .cond]

/-- The JSON key string of a parameter. -/
def paramKeyStr : ParamKey → String
  | .temp => "temp" | .ph => "ph" | .gh => "gh" | .kh => "kh"
  | .no2 => "no2" | .no3 => "no3" | .tds => "tds" | .cond => "cond"

/-- One entry of the `WaterLimits` table: optional min and max bound. -/
structure Limits where
  min : Option ℚ
  max : Option ℚ
deriving DecidableEq, Repr

/-- Result type of `inRange`. -/
inductive LimStatus where
  | na | low | high | ok
deriving DecidableEq, Repr

/-- `lim.min != null && value < lim.min`. -/
def belowMin (v : ℚ) (lim : Limits) : Bool :=
  match lim.min with
  | some m => decide (v < m)
  | none => false

/-- `lim.max != null && value > lim.max`. -/
def aboveMax (v : ℚ) (lim : Limits) : Bool :=
  match lim.max with
  | some m => decide (v > m)
  | none => false

/-- `inRange` (source lines 72–77). -/
def inRange (value : Option ℚ) (lim : Limits) : LimStatus :=
  match value with
  | none => .na
  | some v =>
    if belowMin v lim then .low
    else if aboveMax v lim then .high
    else .ok

/-! ## Typed entities and the document (`AppState`) -/

/-- `Tank` (source lines 81–89).  `waterParams` is the per-tank enablement
record `Record<ParamKey, boolean>`. -/
structure Tank where
  id : String
  name : String
  volumeL : JsNum
  location : String
  purpose : String
  active : Bool
  waterParams : ParamKey → Bool

/-- `Line` (source lines 91–98). -/
structure Line where
  id : String
  name : String
  code : String
  traits : List String
  notes : String
  archived : Bool

/-- `Attempt` (source lines 100–111). -/
structure Attempt where
  id : String
  name : String
  lineId : String
  tankIds : List String
  startDate : String
  endDate : String
  goal : String
  notes : String
  active : Bool
  archived : Bool

/-- `Group` (source lines 113–123). -/
structure Group where
  id : String
  attemptId : String
  name : String
  tankId : String
  maleCount : JsNum
  femaleCount : JsNum
  notes : String
  active : Bool
  archived : Bool

/-- `WaterEntry` (source lines 125–130): fixed fields plus an optional numeric
value per parameter key (`none` = absent or null). -/
structure WaterEntry where
  id : String
  tankId : String
  date : String
  note : String
  params : ParamKey → Option JsNum

/-- The `kind` enumeration of a log entry. -/
inductive LogKind where
  | futter | pflege | wurf | beobachtung | sonstiges
deriving DecidableEq, Repr

/-- `LogEntry` (source lines 132–140); `tankId = ""` means the entry applies
to the whole attempt. -/
structure LogEntry where
  id : String
  attemptId : String
  tankId : String
  date : String
  kind : LogKind
  title : String
  notes : String
deriving DecidableEq

/-- `Settings` (source lines 142–146). -/
structure Settings where
  breederName : String
  maxPhotoMB : JsNum
  waterLimits : ParamKey → Limits

/-- `AppState` (source lines 148–156): the whole in-memory document. -/
structure AppState where
  settings : Settings
  tanks : List Tank
  lines : List Line
  attempts : List Attempt
  groups : List Group
  water : List WaterEntry
  log : List LogEntry

/-! ## Store mutations (source lines 1502–1561)

Each React `setState(s => …)` updater is embedded as a pure function
`AppState → AppState`.  In the source both the existing record and the
argument are full records of the entity type, so the shallow merge
`{ ...t, ...tank }` overwrites every field and equals the argument. -/

/-- `upsertTank` (source lines 1502–1508). -/
def upsertTank (tank : Tank) (s : AppState) : AppState :=
  if s.tanks.any (fun t => t.id == tank.id) then
    { s with tanks := s.tanks.map (fun t => if t.id == tank.id then tank else t) }
  else
    { s with tanks := tank :: s.tanks }

/-- `removeTank` (source lines 1510–1520): cascade over attempt tank lists
(dropping attempts left with no tank), groups, water entries and log entries. -/
def removeTank (id : String) (s : AppState) : AppState :=
  { s with
    tanks := s.tanks.filter (fun t => t.id != id),
    attempts :=
      (s.attempts.map (fun a => { a with tankIds := a.tankIds.filter (fun x => x != id) })).filter
        (fun a => decide (a.tankIds.length > 0)),
    groups := s.groups.filter (fun g => g.tankId != id),
    water := s.water.filter (fun w => w.tankId != id),
    log := s.log.filter (fun e => e.tankId != id) }

/-- `upsertAttempt` (source lines 1522–1528). -/
def upsertAttempt (a : Attempt) (s : AppState) : AppState :=
  if s.attempts.any (fun x => x.id == a.id) then
    { s with attempts := s.attempts.map (fun x => if x.id == a.id then a else x) }
  else
    { s with attempts := a :: s.attempts }

/-- `removeAttempt` (source lines 1530–1537): cascade over groups and log
entries referencing the attempt. -/
def removeAttempt (id : String) (s : AppState) : AppState :=
  { s with
    attempts := s.attempts.filter (fun a => a.id != id),
    groups := s.groups.filter (fun g => g.attemptId != id),
    log := s.log.filter (fun e => e.attemptId != id) }

/-- `upsertGroup` (source lines 1539–1541): always prepends the argument to
the collection, with no existence check and no merge. -/
def upsertGroup (g : Group) (s : AppState) : AppState :=
  { s with groups := g :: s.groups }

/-- `removeGroup` (source lines 1543–1545). -/
def removeGroup (id : String) (s : AppState) : AppState :=
  { s with groups := s.groups.filter (fun g => g.id != id) }

/-- `addWater` (source lines 1547–1549); the fresh `uid()` is passed in. -/
def addWater (freshId : String) (entry : WaterEntry) (s : AppState) : AppState :=
  { s with water := { entry with id := freshId } :: s.water }

/-- `removeWater` (source lines 1551–1553). -/
def removeWater (id : String) (s : AppState) : AppState :=
  { s with water := s.water.filter (fun w => w.id != id) }

/-- `addLog` (source lines 1555–1557); the fresh `uid()` is passed in. -/
def addLog (freshId : String) (entry : LogEntry) (s : AppState) : AppState :=
  { s with log := { entry with id := freshId } :: s.log }

/-- `removeLog` (source lines 1559–1561). -/
def removeLog (id : String) (s : AppState) : AppState :=
  { s with log := s.log.filter (fun e => e.id != id) }

/-- Modelled from the spec: the repository declares a line-removal operation
only as the `removeLine` prop of `LinesTab` (source line 585) — no code in the
repository implements it (the main component defines no `removeLine` and never
renders `LinesTab`).  Following the spec: removing a Line referenced by at
least one non-archived Attempt archives it instead; an unreferenced Line is
removed outright. -/
def removeLine (id : String) (s : AppState) : AppState :=
  if s.attempts.any (fun a => a.lineId == id && !a.archived) then
    { s with lines := s.lines.map (fun l => if l.id == id then { l with archived := true } else l) }
  else
    { s with lines := s.lines.filter (fun l => l.id != id) }

/-! ## The persistence layer: `loadState` (source lines 239–293)

`JSON.parse` output is modelled by `Json`.  Property access `o.k` throws a
`TypeError` when `o` is `null`/`undefined` and otherwise yields the field (or
`undefined`); optional chaining `o?.k` never throws.  `seed()` (source lines
161–237) builds a fresh example dataset from `Math.random()` and the clock,
so it enters the model as a parameter, as does the `uid()` supply. -/

/-- A JavaScript value as produced by `JSON.parse`, extended with `undefined`
(the result of reading a missing property). -/
inductive Json where
  | null
  | undefined
  | bool (b : Bool)
  | num (n : JsNum)
  | str (s : String)
  | arr (elts : List Json)
  | obj (fields : List (String × Json))

/-- JavaScript truthiness. -/
def Json.truthy : Json → Bool
  | .null => false
  | .undefined => false
  | .bool b => b
  | .num n => match n with
    | .finite q => decide (q ≠ 0)
    | .nan => false
    | .posInf => true
    | .negInf => true
  | .str s => decide (s ≠ "")
  | .arr _ => true
  | .obj _ => true

/-- `typeof x === "object"` for a truthy `x` (objects and arrays; `null` also
has typeof "object" but is never truthy). -/
def Json.isObjLike : Json → Bool
  | .obj _ => true
  | .arr _ => true
  | _ => false

/-- Optional-chaining property read `o?.k`: `undefined` on `null`/`undefined`
and on primitives (none of the accessed keys exists on a primitive wrapper),
the field or `undefined` on an object. -/
def Json.getFieldOpt : Json → String → Json
  | .obj fs, k =>
    match fs.find? (fun p => p.1 == k) with
    | some p => p.2
    | none => .undefined
  | _, _ => .undefined

/-- Plain property read `o.k`: throws (`TypeError`) on `null`/`undefined`. -/
def Json.getFieldEx : Json → String → Except Unit Json
  | .null, _ => .error ()
  | .undefined, _ => .error ()
  | j, k => .ok (j.getFieldOpt k)

/-- Approximate decimal rendering of a JS number (see `jsString`). -/
def jsNumToString : JsNum → String
  | .nan => "NaN"
  | .posInf => "Infinity"
  | .negInf => "-Infinity"
  | .finite q => if q.den = 1 then toString q.num else toString q.num ++ "/" ++ toString q.den

mutual

/-- Model of JavaScript `String(v)` string coercion.  The rendering of finite
numbers approximates ECMAScript `ToString(Number)` (which is
shortest-round-trip binary64 printing); no claim below depends on it. -/
def jsString : Json → String
  | .null => "null"
  | .undefined => "undefined"
  | .bool b => if b then "true" else "false"
  | .num n => jsNumToString n
  | .str s => s
  | .arr l => String.intercalate "," (jsStringElems l)
  | .obj _ => "[object Object]"

/-- `Array.prototype.join`: `null`/`undefined` elements render as "". -/
def jsStringElems : List Json → List String
  | [] => []
  | .null :: t => "" :: jsStringElems t
  | .undefined :: t => "" :: jsStringElems t
  | j :: t => jsString j :: jsStringElems t

end

/-- Model of `Number(v)` (`ToNumber`) on non-number values. -/
def jsToNumber : Json → JsNum
  | .null => .finite 0
  | .undefined => .nan
  | .bool b => .finite (if b then 1 else 0)
  | .num n => n
  | .str s => strToNumber s
  | .arr l => strToNumber (jsString (.arr l))
  | .obj _ => .nan

/-- A tank as produced by `normalizeTank`: every field defensively re-typed. -/
structure LoadedTank where
  id : String
  name : String
  volumeL : JsNum
  location : String
  purpose : String
  active : Bool
  waterParams : ParamKey → Bool

/-- A water-limits entry as normalised on load (`min`/`max` kept only when the
stored value has `typeof === "number"`). -/
structure LoadedLimit where
  min : Option JsNum
  max : Option JsNum

/-- The settings record as normalised on load. -/
structure LoadedSettings where
  breederName : String
  maxPhotoMB : JsNum
  waterLimits : ParamKey → LoadedLimit

/-- The document as returned by `loadState`.  Settings and tanks are fully
re-typed; the five other collections are whatever `JSON.parse` produced,
element for element (the source passes `parsed.lines`, `parsed.attempts`,
`parsed.groups`, `parsed.water` and `parsed.log` through unchanged). -/
structure LoadedState where
  settings : LoadedSettings
  tanks : List LoadedTank
  lines : List Json
  attempts : List Json
  groups : List Json
  water : List Json
  log : List Json

/-- `normalizeTank` (source lines 260–275); `freshId` stands for the `uid()`
fallback.  Only guarded or optional-chained accesses occur, so it never
throws. -/
def normalizeTank (freshId : String) (t : Json) : LoadedTank :=
  let inc := if t.truthy && (t.getFieldOpt "waterParams").truthy
             then t.getFieldOpt "waterParams" else Json.obj []
  let wp : ParamKey → Bool := fun k =>
    match inc.getFieldOpt (paramKeyStr k) with
    | .bool b => b
    | _ => false
  let idJ := t.getFieldOpt "id"
  let nameJ := t.getFieldOpt "name"
  let locJ := t.getFieldOpt "location"
  let purJ := t.getFieldOpt "purpose"
  { id := if idJ.truthy then jsString idJ else freshId,
    name := if nameJ.truthy then jsString nameJ else "Becken",
    volumeL :=
      match t.getFieldOpt "volumeL" with
      | .num n => n
      | v => if v.truthy then jsToNumber v else .finite 0,
    location := if locJ.truthy then jsString locJ else "",
    purpose := if purJ.truthy then jsString purJ else "",
    active := match t.getFieldOpt "active" with
      | .bool false => false
      | _ => true,
    waterParams := wp }

/-- The non-throwing part of `loadState`'s try block, evaluated once `parsed`
is known not to be `null`/`undefined` (see `loadStateBody`). -/
def loadStateCore (uidS : ℕ → String) (parsed : Json) : LoadedState :=
  let settingsIn :=
    if parsed.truthy then
      (if (parsed.getFieldOpt "settings").truthy then parsed.getFieldOpt "settings" else Json.obj [])
    else Json.obj []
  let wlJ := settingsIn.getFieldOpt "waterLimits"
  let incoming := if wlJ.truthy && wlJ.isObjLike then some wlJ else none
  let waterLimits : ParamKey → LoadedLimit := fun k =>
    match incoming with
    | none => ⟨none, none⟩
    | some inc =>
      let x := inc.getFieldOpt (paramKeyStr k)
      if x.truthy && x.isObjLike then
        ⟨(match x.getFieldOpt "min" with | .num n => some n | _ => none),
         (match x.getFieldOpt "max" with | .num n => some n | _ => none)⟩
      else ⟨none, none⟩
  { settings :=
      { breederName := match settingsIn.getFieldOpt "breederName" with
          | .str s => s
          | _ => "",
        maxPhotoMB := match settingsIn.getFieldOpt "maxPhotoMB" with
          | .num n => n
          | _ => .finite (3 / 2),
        waterLimits },
    tanks := match parsed.getFieldOpt "tanks" with
      | .arr l => l.enum.map (fun p => normalizeTank (uidS p.1) p.2)
      | _ => [],
    lines := match parsed.getFieldOpt "lines" with
      | .arr l => l
      | _ => [],
    attempts := match parsed.getFieldOpt "attempts" with
      | .arr l => l
      | _ => [],
    groups := match parsed.getFieldOpt "groups" with
      | .arr l => l
      | _ => [],
    water := match parsed.getFieldOpt "water" with
      | .arr l => l
      | _ => [],
    log := match parsed.getFieldOpt "log" with
      | .arr l => l
      | _ => [] }

/-- The try block of `loadState` after a successful `JSON.parse`.  The only
unguarded property reads are `parsed.tanks` … `parsed.log` (source lines
283–288), which throw exactly when `parsed` is `null` (or `undefined`, which
`JSON.parse` cannot yield); everything else is guarded.  The throw is
modelled by `Except.error`. -/
def loadStateBody (uidS : ℕ → String) (parsed : Json) : Except Unit LoadedState :=
  match parsed with
  | .null => .error ()
  | .undefined => .error ()
  | _ => .ok (loadStateCore uidS parsed)

/-- `loadState` (source lines 239–293).  The slot is `none` when the storage
key is absent (or the raw string is empty), `some none` when the stored text
does not parse, `some (some j)` when it parses to `j`.  Any throw inside the
try block is caught and yields the seed document. -/
def loadState (seedDoc : LoadedState) (uidS : ℕ → String) :
    Option (Option Json) → LoadedState
  | none => seedDoc
  | some none => seedDoc
  | some (some parsed) =>
    match loadStateBody uidS parsed with
    | .ok st => st
    | .error _ => seedDoc

/-! ### Structural validity of a loaded document (the spec's notion of
"all required fields present with correct types", entity shapes of §3) -/

/-- The stored value is a string. -/
def Json.isStr : Json → Bool
  | .str _ => true
  | _ => false

/-- The stored value is a boolean. -/
def Json.isBool : Json → Bool
  | .bool _ => true
  | _ => false

/-- The stored value is a number. -/
def Json.isNum : Json → Bool
  | .num _ => true
  | _ => false

/-- The stored value is an array of strings. -/
def Json.isStrArr : Json → Bool
  | .arr l => l.all Json.isStr
  | _ => false

/-- A stored field, read without throwing. -/
def fieldOf (j : Json) (k : String) : Json := j.getFieldOpt k

/-- Structural validity of a stored `Line`. -/
def validLine (j : Json) : Bool :=
  match j with
  | .obj _ =>
    (fieldOf j "id").isStr && (fieldOf j "name").isStr && (fieldOf j "code").isStr &&
    (fieldOf j "traits").isStrArr && (fieldOf j "notes").isStr && (fieldOf j "archived").isBool
  | _ => false

/-- Structural validity of a stored `Attempt`. -/
def validAttempt (j : Json) : Bool :=
  match j with
  | .obj _ =>
    (fieldOf j "id").isStr && (fieldOf j "name").isStr && (fieldOf j "lineId").isStr &&
    (fieldOf j "tankIds").isStrArr && (fieldOf j "startDate").isStr &&
    (fieldOf j "endDate").isStr && (fieldOf j "goal").isStr && (fieldOf j "notes").isStr &&
    (fieldOf j "active").isBool && (fieldOf j "archived").isBool
  | _ => false

/-- Structural validity of a stored `Group`. -/
def validGroup (j : Json) : Bool :=
  match j with
  | .obj _ =>
    (fieldOf j "id").isStr && (fieldOf j "attemptId").isStr && (fieldOf j "name").isStr &&
    (fieldOf j "tankId").isStr && (fieldOf j "maleCount").isNum &&
    (fieldOf j "femaleCount").isNum && (fieldOf j "notes").isStr &&
    (fieldOf j "active").isBool && (fieldOf j "archived").isBool
  | _ => false

/-- A stored per-parameter measurement: absent, null, or a number. -/
def validParamField (j : Json) : Bool :=
  match j with
  | .undefined => true
  | .null => true
  | .num _ => true
  | _ => false

/-- Structural validity of a stored `WaterEntry`. -/
def validWater (j : Json) : Bool :=
  match j with
  | .obj _ =>
    (fieldOf j "id").isStr && (fieldOf j "tankId").isStr && (fieldOf j "date").isStr &&
    (fieldOf j "note").isStr &&
    ALL_PARAM_KEYS.all (fun k => validParamField (fieldOf j (paramKeyStr k)))
  | _ => false

/-- Structural validity of a stored `LogEntry`. -/
def validLogEntry (j : Json) : Bool :=
  match j with
  | .obj _ =>
    (fieldOf j "id").isStr && (fieldOf j "attemptId").isStr && (fieldOf j "tankId").isStr &&
    (fieldOf j "date").isStr &&
    (match fieldOf j "kind" with
     | .str s => s == "Futter" || s == "Pflege" || s == "Wurf" || s == "Beobachtung" || s == "Sonstiges"
     | _ => false) &&
    (fieldOf j "title").isStr && (fieldOf j "notes").isStr
  | _ => false

/-- Structural validity of the collections a loaded document carries as raw
JSON (settings and tanks are fully re-typed by construction). -/
def validDoc (st : LoadedState) : Bool :=
  st.lines.all validLine && st.attempts.all validAttempt && st.groups.all validGroup &&
  st.water.all validWater && st.log.all validLogEntry

/-! ## Derived views -/

/-- The dashboard's count of active attempts (source line 397):
`attempts.filter(a => a.active && !a.archived).length`. -/
def dashboardActiveAttempts (s : AppState) : ℕ :=
  (s.attempts.filter (fun a => a.active && !a.archived)).length

/-- The dashboard's count of active tanks (source line 398):
`tanks.filter(t => t.active).length`. -/
def dashboardActiveTanks (s : AppState) : ℕ :=
  (s.tanks.filter (fun t => t.active)).length

/-- The comparator of source line 399, `(a, b) => (a.date < b.date ? 1 : -1)`,
read as the predicate "`b` need not precede `a`" (`compare(a,b) ≤ 0`).  Note
the comparator never returns 0: two entries with equal dates compare as `-1`
in both argument orders, so it is not a consistent comparison function in the
ECMAScript sense. -/
def logDesc (a b : LogEntry) : Prop := ¬ a.date < b.date

/-- What an ECMAScript-compliant `Array.prototype.sort` guarantees for the
comparator of source line 399: the output is a permutation of the input that
is pairwise ordered by `logDesc` (descending by date).  Because the comparator
is inconsistent on equal dates, the relative order of equal-date entries is
implementation-defined, so the sort is modelled as a relation rather than a
function. -/
def SortsLog (log ys : List LogEntry) : Prop :=
  ys.Perm log ∧ ys.Pairwise logDesc

/-- The earliest-inserted entry of maximal date: what `sort(...)[0] || null`
would yield under a sort that kept equal-date entries in insertion order. -/
def firstMaxLog : List LogEntry → Option LogEntry
  | [] => none
  | a :: t =>
    match firstMaxLog t with
    | none => some a
    | some m => if ¬ a.date < m.date then some a else some m

/-- The active-parameter list for a tank (source lines 1148–1156): the enabled
keys in catalog order, with `temp` as fallback when none is enabled (a missing
tank enables all). -/
def activeParamsOf (tank : Option Tank) : List ParamKey :=
  let wp : ParamKey → Bool :=
    match tank with
    | some t => t.waterParams
    | none => fun _ => true
  let list := ALL_PARAM_KEYS.filter wp
  if list.isEmpty then [ParamKey.temp] else list

/-- The payload the water-entry form builds (source lines 1291–1299): fixed
fields plus `parseNumOrNull(values[k] || "")` for every active parameter key;
keys outside `activeParams` are never set.  `today` stands for
`toISODate(new Date())`. -/
def mkWaterPayload (tankId date note today : String) (activeParams : List ParamKey)
    (values : ParamKey → String) : WaterEntry :=
  { id := "",
    tankId := tankId,
    date := if date == "" then today else date,
    note := note,
    params := fun k =>
      if activeParams.contains k then parseNumOrNull (values k) else none }

/-! ## Concrete fixtures for witnesses and counterexamples -/

/-- Default water-limits table (all bounds absent). -/
def noLimits : ParamKey → Limits := fun _ => ⟨none, none⟩

/-- A settings record with no thresholds configured. -/
def plainSettings : Settings :=
  { breederName := "", maxPhotoMB := .finite (3 / 2), waterLimits := noLimits }

/-- The empty document. -/
def emptyDoc : AppState :=
  { settings := plainSettings, tanks := [], lines := [], attempts := [],
    groups := [], water := [], log := [] }

/-- A concrete tank. -/
def tankA : Tank :=
  { id := "t1", name := "Becken 01", volumeL := .finite 54, location := "Wohnzimmer",
    purpose := "Zucht", active := true, waterParams := fun _ => false }

/-- A concrete line. -/
def lineA : Line :=
  { id := "L1", name := "Endler", code := "JB-01", traits := ["Japan Blue"],
    notes := "", archived := false }

/-- A concrete attempt housed in tanks `t1` and `t2`. -/
def attemptA : Attempt :=
  { id := "a1", name := "Ansatz A", lineId := "L1", tankIds := ["t1", "t2"],
    startDate := "2025-01-01", endDate := "", goal := "", notes := "",
    active := true, archived := false }

/-- A concrete group in tank `t2`. -/
def groupA : Group :=
  { id := "g1", attemptId := "a1", name := "Zuchtgruppe", tankId := "t2",
    maleCount := .finite 2, femaleCount := .finite 5, notes := "",
    active := true, archived := false }

/-- The same group id with a different name (an update candidate). -/
def groupA2 : Group :=
  { groupA with name := "Jungfische" }

/-- A concrete water entry referencing tank `t2`. -/
def waterA : WaterEntry :=
  { id := "w1", tankId := "t2", date := "2025-02-01", note := "",
    params := fun _ => none }

/-- A concrete log entry on attempt `a1` and tank `t2`. -/
def logA : LogEntry :=
  { id := "e1", attemptId := "a1", tankId := "t2", date := "2025-02-01",
    kind := .pflege, title := "Wasserwechsel", notes := "" }

/-- A second log entry with the same date as `logA` (a tie). -/
def logB : LogEntry :=
  { id := "e2", attemptId := "a1", tankId := "", date := "2025-02-01",
    kind := .beobachtung, title := "Beobachtung", notes := "" }

/-- A document exercising every cascade of `removeTank "t2"`. -/
def stateA : AppState :=
  { settings := plainSettings, tanks := [tankA], lines := [lineA],
    attempts := [attemptA], groups := [groupA], water := [waterA], log := [logA] }

/-- A document with a single group, for the `upsertGroup` counterexample. -/
def stateG : AppState :=
  { emptyDoc with groups := [groupA] }

/-- A document with no tanks but a water entry whose `tankId` dangles:
`removeTank "t2"` is not a no-op on it although no tank has id `t2`. -/
def stateDangling : AppState :=
  { emptyDoc with water := [waterA] }

/-- A document whose log holds two entries with equal dates. -/
def stateTie : AppState :=
  { emptyDoc with log := [logA, logB] }

/-- A loaded document with empty collections (used as a stand-in seed). -/
def emptyLoaded : LoadedState :=
  { settings := { breederName := "", maxPhotoMB := .finite (3 / 2),
                  waterLimits := fun _ => ⟨none, none⟩ },
    tanks := [], lines := [], attempts := [], groups := [], water := [], log := [] }

/-- A parsed slot whose `attempts` array holds `null`: `loadState` returns it
verbatim. -/
def badParsed : Json :=
  Json.obj [("attempts", Json.arr [Json.null])]

/-- A fixed `uid()` supply for concrete evaluations. -/
def uid0 : ℕ → String := fun _ => "uid0"

/-! ## Claims -/

/-- **C4.** `classify(value, limits)`: `na` when the value is absent; `low`
when a configured min is violated; `high` when the value is not low and a
configured max is violated; `ok` otherwise — bounds inclusive, and any
non-null value is `ok` with no configured bounds (including the spec's test
vectors). -/
theorem claim_C4 (v : ℚ) (lim : Limits) :
    inRange none lim = .na
    ∧ (∀ m, lim.min = some m → v < m → inRange (some v) lim = .low)
    ∧ (∀ M, lim.max = some M → (∀ m, lim.min = some m → ¬ v < m) → M < v →
        inRange (some v) lim = .high)
    ∧ ((∀ m, lim.min = some m → ¬ v < m) → (∀ M, lim.max = some M → ¬ M < v) →
        inRange (some v) lim = .ok)
    ∧ inRange (some 5) ⟨some 6, none⟩ = .low
    ∧ inRange (some 5) ⟨none, some 4⟩ = .high
    ∧ inRange (some 5) ⟨some 5, some 5⟩ = .ok
    ∧ inRange (some 5) ⟨none, none⟩ = .ok := by
  have hbelow : ∀ (h : ∀ m, lim.min = some m → ¬ v < m), belowMin v lim = false := by
    intro h
    unfold belowMin
    cases hm : lim.min with
    | none => rfl
    | some m => simp [h m hm]
  have habove : ∀ (h : ∀ M, lim.max = some M → ¬ M < v), aboveMax v lim = false := by
    intro h
    unfold aboveMax
    cases hM : lim.max with
    | none => rfl
    | some M => simp [h M hM]
  refine ⟨rfl, ?_, ?_, ?_, by decide, by decide, by decide, by decide⟩
  · intro m hm hv
    simp [inRange, belowMin, hm, hv]
  · intro M hM hmin hv
    simp [inRange, hbelow hmin, aboveMax, hM, hv]
  · intro hmin hmax
    simp [inRange, hbelow hmin, habove hmax]

/-- **C9.** `parseNumOrNull` is total and never yields a non-finite number,
and every numeric parameter field of the water-entry form's payload is a
finite number or null. -/
theorem claim_C9 :
    (∀ s, parseNumOrNull s = none ∨ ∃ q, parseNumOrNull s = some (.finite q))
    ∧ (∀ tankId date note today ap values k,
        (mkWaterPayload tankId date note today ap values).params k = none
        ∨ ∃ q, (mkWaterPayload tankId date note today ap values).params k =
            some (.finite q)) := by
  have main : ∀ s, parseNumOrNull s = none ∨ ∃ q, parseNumOrNull s = some (.finite q) := by
    intro s
    simp only [parseNumOrNull]
    split
    · exact Or.inl rfl
    · cases hn : strToNumber (jsReplaceComma (jsTrim s)) with
      | nan => simp [hn, JsNum.isFinite]
      | posInf => simp [hn, JsNum.isFinite]
      | negInf => simp [hn, JsNum.isFinite]
      | finite q => exact Or.inr ⟨q, by simp [hn, JsNum.isFinite]⟩
  refine ⟨main, ?_⟩
  intro tankId date note today ap values k
  by_cases h : k ∈ ap
  · rcases main (values k) with h1 | ⟨q, h2⟩
    · exact Or.inl (by simp [mkWaterPayload, h, h1])
    · exact Or.inr ⟨q, by simp [mkWaterPayload, h, h2]⟩
  · exact Or.inl (by simp [mkWaterPayload, h])

/-- **C1.** `removeTank(t)` leaves no reference to `t` anywhere (attempt tank
lists, groups, water entries, log entries), drops every attempt whose tank
list became empty, keeps every attempt that still has a tank (with `t`
filtered out of its list), and removes exactly the tanks with id `t`. -/
theorem claim_C1 (s : AppState) (t : String) :
    (∀ a ∈ (removeTank t s).attempts, t ∉ a.tankIds)
    ∧ (∀ g ∈ (removeTank t s).groups, g.tankId ≠ t)
    ∧ (∀ w ∈ (removeTank t s).water, w.tankId ≠ t)
    ∧ (∀ e ∈ (removeTank t s).log, e.tankId ≠ t)
    ∧ (∀ a ∈ (removeTank t s).attempts, a.tankIds ≠ [])
    ∧ (∀ a ∈ s.attempts, a.tankIds.filter (fun x => x != t) ≠ [] →
        { a with tankIds := a.tankIds.filter (fun x => x != t) } ∈ (removeTank t s).attempts)
    ∧ (∀ tk ∈ (removeTank t s).tanks, tk.id ≠ t)
    ∧ (∀ tk ∈ s.tanks, tk.id ≠ t → tk ∈ (removeTank t s).tanks) := by
  refine ⟨?_, ?_, ?_, ?_, ?_, ?_, ?_, ?_⟩
  · intro a ha hmem
    simp only [removeTank, List.mem_filter, List.mem_map] at ha
    obtain ⟨⟨a0, _, rfl⟩, _⟩ := ha
    simp only [List.mem_filter, bne_iff_ne] at hmem
    exact hmem.2 rfl
  · intro g hg
    simp only [removeTank, List.mem_filter, bne_iff_ne] at hg
    exact hg.2
  · intro w hw
    simp only [removeTank, List.mem_filter, bne_iff_ne] at hw
    exact hw.2
  · intro e he
    simp only [removeTank, List.mem_filter, bne_iff_ne] at he
    exact he.2
  · intro a ha
    simp only [removeTank, List.mem_filter] at ha
    have := ha.2
    simp only [decide_eq_true_eq] at this
    exact List.ne_nil_of_length_pos this
  · intro a ha hne
    simp only [removeTank, List.mem_filter, List.mem_map]
    refine ⟨⟨a, ha, rfl⟩, ?_⟩
    simpa [decide_eq_true_eq] using List.length_pos.mpr hne
  · intro tk htk
    simp only [removeTank, List.mem_filter, bne_iff_ne] at htk
    exact htk.2
  · intro tk htk hne
    simp only [removeTank, List.mem_filter, bne_iff_ne]
    exact ⟨htk, hne⟩

/-- **C6.** `removeAttempt(a)` removes the attempt and every group and log
entry referencing it, while tanks, lines, water entries and settings are
unchanged. -/
theorem claim_C6 (s : AppState) (aid : String) :
    (∀ a ∈ (removeAttempt aid s).attempts, a.id ≠ aid)
    ∧ (∀ g ∈ (removeAttempt aid s).groups, g.attemptId ≠ aid)
    ∧ (∀ e ∈ (removeAttempt aid s).log, e.attemptId ≠ aid)
    ∧ (removeAttempt aid s).tanks = s.tanks
    ∧ (removeAttempt aid s).lines = s.lines
    ∧ (removeAttempt aid s).water = s.water
    ∧ (removeAttempt aid s).settings = s.settings := by
  refine ⟨?_, ?_, ?_, rfl, rfl, rfl, rfl⟩
  · intro a ha
    simp only [removeAttempt, List.mem_filter, bne_iff_ne] at ha
    exact ha.2
  · intro g hg
    simp only [removeAttempt, List.mem_filter, bne_iff_ne] at hg
    exact hg.2
  · intro e he
    simp only [removeAttempt, List.mem_filter, bne_iff_ne] at he
    exact he.2

/-- Helper: a map that fixes every member is the identity. -/
theorem listMapSelf {α : Type} (f : α → α) (l : List α) (h : ∀ a ∈ l, f a = a) :
    l.map f = l := by
  induction l with
  | nil => rfl
  | cons a t ih =>
    simp only [List.map_cons]
    rw [h a (by simp), ih (fun x hx => h x (by simp [hx]))]

/-- **C3 (counterexample).** The claim fails for groups: `upsertGroup` never
merges, it prepends even when a group with the same id exists. -/
theorem claim_C3_counterexample :
    ¬ (∀ (g : Group) (s : AppState), (∃ g0 ∈ s.groups, g0.id = g.id) →
        (upsertGroup g s).groups = s.groups.map (fun x => if x.id == g.id then g else x)) := by
  intro h
  have hc := h groupA2 stateG ⟨groupA, by simp [stateG, emptyDoc], rfl⟩
  simp [upsertGroup, stateG, emptyDoc, groupA2, groupA] at hc

/-- **C3 (amended).** `upsertTank` and `upsertAttempt` replace the record in
place when the id exists (the shallow merge of two full records is the new
record) and otherwise insert at the head; `upsertGroup` always inserts at the
head, never merging, even when a group with the same id exists. -/
theorem claim_C3_amended (tank : Tank) (a : Attempt) (g : Group) (s : AppState) :
    ((∃ t ∈ s.tanks, t.id = tank.id) →
      (upsertTank tank s).tanks = s.tanks.map (fun t => if t.id == tank.id then tank else t))
    ∧ ((∀ t ∈ s.tanks, t.id ≠ tank.id) → (upsertTank tank s).tanks = tank :: s.tanks)
    ∧ ((∃ x ∈ s.attempts, x.id = a.id) →
      (upsertAttempt a s).attempts = s.attempts.map (fun x => if x.id == a.id then a else x))
    ∧ ((∀ x ∈ s.attempts, x.id ≠ a.id) → (upsertAttempt a s).attempts = a :: s.attempts)
    ∧ (upsertGroup g s).groups = g :: s.groups := by
  refine ⟨?_, ?_, ?_, ?_, rfl⟩
  · rintro ⟨t, ht, hid⟩
    have hany : s.tanks.any (fun t => t.id == tank.id) = true :=
      List.any_eq_true.mpr ⟨t, ht, by simp [hid]⟩
    simp [upsertTank, hany]
  · intro h
    have hany : s.tanks.any (fun t => t.id == tank.id) = false := by
      rw [List.any_eq_false]
      intro t ht
      simp [h t ht]
    simp [upsertTank, hany]
  · rintro ⟨x, hx, hid⟩
    have hany : s.attempts.any (fun x => x.id == a.id) = true :=
      List.any_eq_true.mpr ⟨x, hx, by simp [hid]⟩
    simp [upsertAttempt, hany]
  · intro h
    have hany : s.attempts.any (fun x => x.id == a.id) = false := by
      rw [List.any_eq_false]
      intro x hx
      simp [h x hx]
    simp [upsertAttempt, hany]

/-- **C5.** (The store itself defines no line removal; `removeLine` is the
spec-modelled operation.)  Removing a line referenced by a non-archived
attempt keeps it, archived; removing an unreferenced line deletes it. -/
theorem claim_C5 (s : AppState) (id : String) :
    ((∃ a ∈ s.attempts, a.lineId = id ∧ a.archived = false) →
      ∀ l0 ∈ s.lines, l0.id = id →
        { l0 with archived := true } ∈ (removeLine id s).lines)
    ∧ ((∀ a ∈ s.attempts, ¬(a.lineId = id ∧ a.archived = false)) →
      ∀ l0 ∈ (removeLine id s).lines, l0.id ≠ id) := by
  constructor
  · rintro ⟨a, ha, hlid, harch⟩ l0 hl0 hid
    have hany : s.attempts.any (fun a => a.lineId == id && !a.archived) = true :=
      List.any_eq_true.mpr ⟨a, ha, by simp [hlid, harch]⟩
    simp only [removeLine, hany, if_true]
    refine List.mem_map.mpr ⟨l0, hl0, ?_⟩
    simp [hid]
  · intro h
    have hany : s.attempts.any (fun a => a.lineId == id && !a.archived) = false := by
      rw [List.any_eq_false]
      intro a ha
      have := h a ha
      by_cases h1 : a.lineId = id
      · by_cases h2 : a.archived
        · simp [h2]
        · exact absurd ⟨h1, by simpa using h2⟩ this
      · simp [h1]
    intro l0 hl0
    simp only [removeLine, hany, if_false, Bool.false_eq_true] at hl0
    have := (List.mem_filter.mp hl0).2
    simpa [bne_iff_ne] using this

/-- **C8 (counterexample).** A removal with an id that is no tank's id is not
always a no-op: on a document with a dangling reference (a water entry whose
`tankId` names no existing tank) `removeTank` deletes the dangling entry. -/
theorem claim_C8_counterexample :
    (∀ tk ∈ stateDangling.tanks, tk.id ≠ "t2")
    ∧ removeTank "t2" stateDangling ≠ stateDangling := by
  refine ⟨by simp [stateDangling, emptyDoc], ?_⟩
  intro h
  have hw : (removeTank "t2" stateDangling).water = stateDangling.water :=
    congrArg AppState.water h
  simp [removeTank, stateDangling, emptyDoc, waterA] at hw

/-- **C8 (amended).** Removal with an id that occurs nowhere in the document
is a no-op: `removeTank(id)` returns the state unchanged when no tank, attempt
tank list, group, water entry or log entry carries the id (and no attempt
already has an empty tank list, which `removeTank` would drop as a side
effect); `removeAttempt(id)` returns the state unchanged when no attempt,
group or log entry carries the id. -/
theorem claim_C8_amended (s : AppState) (id : String) :
    ((∀ tk ∈ s.tanks, tk.id ≠ id) → (∀ a ∈ s.attempts, id ∉ a.tankIds) →
     (∀ a ∈ s.attempts, a.tankIds ≠ []) →
     (∀ g ∈ s.groups, g.tankId ≠ id) → (∀ w ∈ s.water, w.tankId ≠ id) →
     (∀ e ∈ s.log, e.tankId ≠ id) → removeTank id s = s)
    ∧ ((∀ a ∈ s.attempts, a.id ≠ id) → (∀ g ∈ s.groups, g.attemptId ≠ id) →
       (∀ e ∈ s.log, e.attemptId ≠ id) → removeAttempt id s = s) := by
  constructor
  · intro h1 h2 h3 h4 h5 h6
    have htanks : s.tanks.filter (fun t => t.id != id) = s.tanks :=
      List.filter_eq_self.mpr (fun t ht => by simpa [bne_iff_ne] using h1 t ht)
    have hmap : s.attempts.map
        (fun a => { a with tankIds := a.tankIds.filter (fun x => x != id) }) = s.attempts := by
      refine listMapSelf _ _ (fun a ha => ?_)
      have hf : a.tankIds.filter (fun x => x != id) = a.tankIds :=
        List.filter_eq_self.mpr (fun x hx => by
          simp only [bne_iff_ne, ne_eq, decide_eq_true_eq]
          intro hxe
          exact h2 a ha (hxe ▸ hx))
      rw [hf]
    have hatt : (s.attempts.map
        (fun a => { a with tankIds := a.tankIds.filter (fun x => x != id) })).filter
        (fun a => decide (a.tankIds.length > 0)) = s.attempts := by
      rw [hmap]
      exact List.filter_eq_self.mpr (fun a ha => by
        simpa [decide_eq_true_eq] using List.length_pos.mpr (h3 a ha))
    have hgr : s.groups.filter (fun g => g.tankId != id) = s.groups :=
      List.filter_eq_self.mpr (fun g hg => by simpa [bne_iff_ne] using h4 g hg)
    have hwa : s.water.filter (fun w => w.tankId != id) = s.water :=
      List.filter_eq_self.mpr (fun w hw => by simpa [bne_iff_ne] using h5 w hw)
    have hlo : s.log.filter (fun e => e.tankId != id) = s.log :=
      List.filter_eq_self.mpr (fun e he => by simpa [bne_iff_ne] using h6 e he)
    cases s
    simp_all [removeTank]
  · intro h1 h2 h3
    have hatt : s.attempts.filter (fun a => a.id != id) = s.attempts :=
      List.filter_eq_self.mpr (fun a ha => by simpa [bne_iff_ne] using h1 a ha)
    have hgr : s.groups.filter (fun g => g.attemptId != id) = s.groups :=
      List.filter_eq_self.mpr (fun g hg => by simpa [bne_iff_ne] using h2 g hg)
    have hlo : s.log.filter (fun e => e.attemptId != id) = s.log :=
      List.filter_eq_self.mpr (fun e he => by simpa [bne_iff_ne] using h3 e he)
    cases s
    simp_all [removeAttempt]

/-- **C7 (counterexample).** The comparator `(a, b) => (a.date < b.date ? 1 : -1)`
never returns 0, so it is not a consistent comparison function and ECMAScript
leaves the order of equal-date entries implementation-defined: a compliant
sort may put the later-inserted of two equal-date entries first, so "ties
broken by insertion order" does not hold of the code. -/
theorem claim_C7_counterexample :
    ¬ (∀ (s : AppState) (ys : List LogEntry), SortsLog s.log ys →
        ys.head? = firstMaxLog s.log) := by
  intro h
  have hs : SortsLog stateTie.log [logB, logA] := by
    constructor
    · show ([logB, logA] : List LogEntry).Perm [logA, logB]
      exact List.Perm.swap _ _ _
    · simp [List.pairwise_cons, logDesc, logA, logB]
  have hthis := h stateTie [logB, logA] hs
  have hfm : firstMaxLog stateTie.log = some logA := by
    show firstMaxLog [logA, logB] = some logA
    simp [firstMaxLog, logA, logB]
  have h2 : some logB = some logA := by
    calc some logB = ([logB, logA] : List LogEntry).head? := rfl
    _ = firstMaxLog stateTie.log := hthis
    _ = some logA := hfm
  exact absurd (Option.some.inj h2) (by decide)

/-- **C7 (amended).** The dashboard counts attempts with `active && !archived`
and tanks with `active`; the "most recent" log entry is the head of a
descending-by-date sort of the log: it is always an entry of maximal date
(and exists iff the log is non-empty, with `none` over the empty document),
but the choice among entries with equal maximal date is implementation-defined
because the comparator never returns 0. -/
theorem claim_C7_amended (s : AppState) (ys : List LogEntry) :
    (SortsLog s.log ys →
      (∀ e, ys.head? = some e → e ∈ s.log ∧ ∀ x ∈ s.log, ¬ e.date < x.date)
      ∧ (s.log = [] → ys.head? = none)
      ∧ (s.log ≠ [] → ∃ e, ys.head? = some e))
    ∧ dashboardActiveAttempts s = s.attempts.countP (fun a => a.active && !a.archived)
    ∧ dashboardActiveTanks s = s.tanks.countP (fun t => t.active)
    ∧ dashboardActiveAttempts emptyDoc = 0
    ∧ dashboardActiveTanks emptyDoc = 0
    ∧ (∀ ys2, SortsLog emptyDoc.log ys2 → ys2.head? = none) := by
  have main : ∀ (log ys : List LogEntry), SortsLog log ys →
      (∀ e, ys.head? = some e → e ∈ log ∧ ∀ x ∈ log, ¬ e.date < x.date)
      ∧ (log = [] → ys.head? = none)
      ∧ (log ≠ [] → ∃ e, ys.head? = some e) := by
    intro log ys hsort
    obtain ⟨hperm, hpair⟩ := hsort
    refine ⟨?_, ?_, ?_⟩
    · intro e he
      cases ys with
      | nil => simp at he
      | cons a t =>
        have hae : a = e := by simpa using he
        subst hae
        obtain ⟨hrel, _⟩ := List.pairwise_cons.mp hpair
        refine ⟨hperm.subset (by simp), ?_⟩
        intro x hx
        have hx2 : x ∈ a :: t := hperm.symm.subset hx
        rcases List.mem_cons.mp hx2 with hxa | hxt
        · subst hxa
          exact lt_irrefl _
        · exact hrel x hxt
    · intro hnil
      subst hnil
      have := hperm.eq_nil
      simp [this]
    · intro hne
      cases ys with
      | nil =>
        exact absurd hperm.symm.eq_nil hne
      | cons a t => exact ⟨a, rfl⟩
  refine ⟨main s.log ys, ?_, ?_, by decide, by decide, ?_⟩
  · simp [dashboardActiveAttempts, List.countP_eq_length_filter]
  · simp [dashboardActiveTanks, List.countP_eq_length_filter]
  · intro ys2 hs2
    exact (main emptyDoc.log ys2 hs2).2.1 rfl

/-! ### Helper lemmas on the string machinery (shared) -/

/-- A `dropWhile` over elements that all fail the predicate is the identity. -/
theorem dropWhileIdOf (p : Char → Bool) (l : List Char) (h : ∀ c ∈ l, p c = false) :
    l.dropWhile p = l := by
  cases l with
  | nil => rfl
  | cons c t => simp [List.dropWhile_cons, h c (by simp)]

/-- A `dropWhile` over elements that all satisfy the predicate drops all. -/
theorem dropWhileNilOf (p : Char → Bool) (l : List Char) (h : ∀ c ∈ l, p c = true) :
    l.dropWhile p = [] := by
  induction l with
  | nil => rfl
  | cons c t ih =>
    simp only [List.dropWhile_cons, h c (by simp), if_true]
    exact ih (fun x hx => h x (by simp [hx]))

/-- Trimming a string with no JS whitespace is the identity. -/
theorem jsTrimEqSelf (sx : String) (h : ∀ c ∈ sx.data, isJsWs c = false) :
    jsTrim sx = sx := by
  unfold jsTrim jsTrimList
  rw [dropWhileIdOf _ _ h,
    dropWhileIdOf _ _ (fun c hc => h c (List.mem_reverse.mp hc)), List.reverse_reverse]

/-- Trimming a whitespace-only string yields the empty string. -/
theorem jsTrimEqEmpty (sx : String) (h : ∀ c ∈ sx.data, isJsWs c = true) :
    jsTrim sx = "" := by
  unfold jsTrim jsTrimList
  rw [dropWhileNilOf _ _ h]
  rfl

/-- Replacing the first comma in a comma-free list is the identity. -/
theorem replaceCommaIdOf (l : List Char) (h : ∀ c ∈ l, c ≠ ',') :
    replaceCommaList l = l := by
  induction l with
  | nil => rfl
  | cons c t ih =>
    simp only [replaceCommaList, h c (by simp), if_false]
    rw [ih (fun x hx => h x (by simp [hx]))]

/-- Replacing the first comma after a comma-free prefix hits that comma. -/
theorem replaceCommaAppend (a b : List Char) (h : ∀ c ∈ a, c ≠ ',') :
    replaceCommaList (a ++ ',' :: b) = a ++ '.' :: b := by
  induction a with
  | nil => simp [replaceCommaList]
  | cons c t ih =>
    simp only [List.cons_append, replaceCommaList, h c (by simp), if_false]
    show c :: replaceCommaList (t ++ ',' :: b) = c :: (t ++ '.' :: b)
    rw [ih (fun x hx => h x (by simp [hx]))]

/-- A decimal digit is not JS whitespace. -/
theorem digitNotWs (c : Char) (h : c.isDigit = true) : isJsWs c = false := by
  by_contra hx
  have hw : isJsWs c = true := by simpa using hx
  have hd : c.isDigit = false := by
    simp only [isJsWs, Bool.or_eq_true, decide_eq_true_eq] at hw
    rcases hw with ((((((((h1|h1)|h1)|h1)|h1)|h1)|h1)|h1)|h1)|h1 <;> subst h1 <;> decide
  rw [hd] at h
  exact Bool.noConfusion h

/-- A decimal digit is not a comma. -/
theorem digitNeComma (c : Char) (h : c.isDigit = true) : c ≠ ',' := by
  intro he
  subst he
  exact Bool.noConfusion h

/-- `parseNumOrNull` depends on its argument only through trim-and-replace. -/
theorem parseNumOrNullCongr (s1 s2 : String)
    (h : jsReplaceComma (jsTrim s1) = jsReplaceComma (jsTrim s2)) :
    parseNumOrNull s1 = parseNumOrNull s2 := by
  unfold parseNumOrNull
  rw [h]

/-- **C10.** `parseNumOrNull` accepts decimal commas: the input is trimmed and
its first comma replaced by a dot, so on digit strings `a`, `b` the inputs
`"a,b"` and `"a.b"` parse alike (e.g. `"25,2"` gives 25.2), and an empty or
whitespace-only input yields null. -/
theorem claim_C10 (a b : String)
    (ha : ∀ c ∈ a.data, c.isDigit = true) (hb : ∀ c ∈ b.data, c.isDigit = true) :
    parseNumOrNull (a ++ "," ++ b) = parseNumOrNull (a ++ "." ++ b)
    ∧ parseNumOrNull "25,2" = some (.finite (126 / 5))
    ∧ (∀ sx, (∀ c ∈ sx.data, isJsWs c = true) → parseNumOrNull sx = none)
    ∧ parseNumOrNull "" = none := by
  refine ⟨?_, ?_, ?_, rfl⟩
  · have hdata1 : (a ++ "," ++ b).data = a.data ++ ',' :: b.data := by
      simp [String.data_append]
    have hdata2 : (a ++ "." ++ b).data = a.data ++ '.' :: b.data := by
      simp [String.data_append]
    have hmem1 : ∀ c ∈ a.data ++ ',' :: b.data, isJsWs c = false := by
      intro c hc
      rcases List.mem_append.mp hc with h1 | h1
      · exact digitNotWs c (ha c h1)
      · rcases List.mem_cons.mp h1 with h2 | h2
        · subst h2; rfl
        · exact digitNotWs c (hb c h2)
    have hmem2 : ∀ c ∈ a.data ++ '.' :: b.data, isJsWs c = false := by
      intro c hc
      rcases List.mem_append.mp hc with h1 | h1
      · exact digitNotWs c (ha c h1)
      · rcases List.mem_cons.mp h1 with h2 | h2
        · subst h2; rfl
        · exact digitNotWs c (hb c h2)
    have htrim1 : jsTrim (a ++ "," ++ b) = a ++ "," ++ b :=
      jsTrimEqSelf _ (by rw [hdata1]; exact hmem1)
    have htrim2 : jsTrim (a ++ "." ++ b) = a ++ "." ++ b :=
      jsTrimEqSelf _ (by rw [hdata2]; exact hmem2)
    refine parseNumOrNullCongr _ _ ?_
    rw [htrim1, htrim2]
    unfold jsReplaceComma
    rw [hdata1, hdata2, replaceCommaAppend a.data b.data (fun c hc => digitNeComma c (ha c hc)),
      replaceCommaIdOf (a.data ++ '.' :: b.data) ?_]
    intro c hc
    rcases List.mem_append.mp hc with h1 | h1
    · exact digitNeComma c (ha c h1)
    · rcases List.mem_cons.mp h1 with h2 | h2
      · subst h2; decide
      · exact digitNeComma c (hb c h2)
  · have key : parseNumOrNull "25,2" =
        some (.finite ((decDigitsVal ['2','5'] + decDigitsVal ['2'] / 10 ^ 1) * qpow10 0)) := rfl
    have c2 : ('2'.toNat - '0'.toNat : ℕ) = 2 := rfl
    have c5 : ('5'.toNat - '0'.toNat : ℕ) = 5 := rfl
    have hval : ((decDigitsVal ['2','5'] + decDigitsVal ['2'] / 10 ^ 1) * qpow10 0 : ℚ) = 126 / 5 := by
      norm_num [decDigitsVal, digitsVal, qpow10, c2, c5]
    rw [key, hval]
  · intro sx h
    have heq : parseNumOrNull sx = parseNumOrNull "" :=
      parseNumOrNullCongr sx "" (by rw [jsTrimEqEmpty sx h]; rfl)
    rw [heq]
    rfl

/-- **C10 (witness).** The comma/dot agreement at a concrete input. -/
theorem claim_C10_witness :
    parseNumOrNull ("25" ++ "," ++ "2") = parseNumOrNull ("25" ++ "." ++ "2") :=
  (claim_C10 "25" "2" (by decide) (by decide)).1

/-- Helper: a successful `loadStateBody` is exactly `loadStateCore`. -/
theorem loadStateBodyOk (uidS : ℕ → String) (parsed : Json) (st : LoadedState)
    (h : loadStateBody uidS parsed = .ok st) : st = loadStateCore uidS parsed := by
  cases parsed with
  | null => exact Except.noConfusion h
  | undefined => exact Except.noConfusion h
  | bool b => exact (Except.ok.inj h).symm
  | num n => exact (Except.ok.inj h).symm
  | str sx => exact (Except.ok.inj h).symm
  | arr l => exact (Except.ok.inj h).symm
  | obj fs => exact (Except.ok.inj h).symm

/-- Helper: the raw-collection match of `loadStateCore` on a non-array. -/
theorem matchArrDefault (j : Json) (h : ∀ l, j ≠ Json.arr l) :
    (match j with | .arr l => l | _ => ([] : List Json)) = [] := by
  cases j with
  | arr l => exact absurd rfl (h l)
  | null => rfl
  | undefined => rfl
  | bool b => rfl
  | num n => rfl
  | str sx => rfl
  | obj fs => rfl

/-- **C2 (counterexample).** There is stored content for which `loadState`
returns a structurally invalid document: storing `{"attempts": [null]}` makes
`loadState` return `null` verbatim as an attempt (the seed argument itself is
structurally valid, so the invalidity comes from the normalisation). -/
theorem claim_C2_counterexample :
    validDoc (loadState emptyLoaded uid0 (some (some badParsed))) = false
    ∧ validDoc emptyLoaded = true :=
  ⟨rfl, rfl⟩

/-- **C2 (amended).** `loadState` never throws: an absent slot, an unparsable
slot or any error inside the try block yields the seed document; settings and
tanks are defensively re-typed (a missing tank name becomes `"Becken"`, a
missing `active` flag defaults to `true`) and a malformed (non-array)
collection becomes an empty list — but the ELEMENTS of `lines`, `attempts`,
`groups`, `water` and `log` are returned verbatim without any re-typing, so
the result need not be structurally valid. -/
theorem claim_C2_amended :
    (∀ seedDoc uidS, loadState seedDoc uidS none = seedDoc
      ∧ loadState seedDoc uidS (some none) = seedDoc
      ∧ ∀ j, loadStateBody uidS j = .error () → loadState seedDoc uidS (some (some j)) = seedDoc)
    ∧ (∀ fresh t, (Json.getFieldOpt t "name").truthy = false →
        (normalizeTank fresh t).name = "Becken")
    ∧ (∀ fresh t, Json.getFieldOpt t "active" = Json.undefined →
        (normalizeTank fresh t).active = true)
    ∧ (∀ uidS parsed st, loadStateBody uidS parsed = .ok st →
        ((∀ l, Json.getFieldOpt parsed "lines" ≠ Json.arr l) → st.lines = [])
        ∧ (∀ l, Json.getFieldOpt parsed "lines" = Json.arr l → st.lines = l)
        ∧ ((∀ l, Json.getFieldOpt parsed "attempts" ≠ Json.arr l) → st.attempts = [])
        ∧ (∀ l, Json.getFieldOpt parsed "attempts" = Json.arr l → st.attempts = l)
        ∧ ((∀ l, Json.getFieldOpt parsed "groups" ≠ Json.arr l) → st.groups = [])
        ∧ (∀ l, Json.getFieldOpt parsed "groups" = Json.arr l → st.groups = l)
        ∧ ((∀ l, Json.getFieldOpt parsed "water" ≠ Json.arr l) → st.water = [])
        ∧ (∀ l, Json.getFieldOpt parsed "water" = Json.arr l → st.water = l)
        ∧ ((∀ l, Json.getFieldOpt parsed "log" ≠ Json.arr l) → st.log = [])
        ∧ (∀ l, Json.getFieldOpt parsed "log" = Json.arr l → st.log = l)
        ∧ ((∀ l, Json.getFieldOpt parsed "tanks" ≠ Json.arr l) → st.tanks = [])
        ∧ (∀ l, Json.getFieldOpt parsed "tanks" = Json.arr l →
            st.tanks = l.enum.map (fun p => normalizeTank (uidS p.1) p.2))) := by
  refine ⟨?_, ?_, ?_, ?_⟩
  · intro seedDoc uidS
    refine ⟨rfl, rfl, ?_⟩
    intro j h
    simp [loadState, h]
  · intro fresh t h
    simp [normalizeTank, h]
  · intro fresh t h
    simp [normalizeTank, h]
  · intro uidS parsed st h
    have hcore := loadStateBodyOk uidS parsed st h
    subst hcore
    refine ⟨?_, ?_, ?_, ?_, ?_, ?_, ?_, ?_, ?_, ?_, ?_, ?_⟩
    · intro hnot
      exact matchArrDefault _ hnot
    · intro l hl
      show (match Json.getFieldOpt parsed "lines" with | .arr l => l | _ => ([] : List Json)) = l
      rw [hl]
    · intro hnot
      exact matchArrDefault _ hnot
    · intro l hl
      show (match Json.getFieldOpt parsed "attempts" with | .arr l => l | _ => ([] : List Json)) = l
      rw [hl]
    · intro hnot
      exact matchArrDefault _ hnot
    · intro l hl
      show (match Json.getFieldOpt parsed "groups" with | .arr l => l | _ => ([] : List Json)) = l
      rw [hl]
    · intro hnot
      exact matchArrDefault _ hnot
    · intro l hl
      show (match Json.getFieldOpt parsed "water" with | .arr l => l | _ => ([] : List Json)) = l
      rw [hl]
    · intro hnot
      exact matchArrDefault _ hnot
    · intro l hl
      show (match Json.getFieldOpt parsed "log" with | .arr l => l | _ => ([] : List Json)) = l
      rw [hl]
    · intro hnot
      show (match Json.getFieldOpt parsed "tanks" with
        | .arr l => l.enum.map (fun p => normalizeTank (uidS p.1) p.2)
        | _ => ([] : List LoadedTank)) = []
      cases hf : Json.getFieldOpt parsed "tanks" with
      | arr l => exact absurd hf (hnot l)
      | null => rfl
      | undefined => rfl
      | bool b => rfl
      | num n => rfl
      | str sx => rfl
      | obj fs => rfl
    · intro l hl
      show (match Json.getFieldOpt parsed "tanks" with
        | .arr l => l.enum.map (fun p => normalizeTank (uidS p.1) p.2)
        | _ => ([] : List LoadedTank)) = l.enum.map (fun p => normalizeTank (uidS p.1) p.2)
      rw [hl]

end Guppy
